import Mathlib

/-!
# Verification of the unesco_reader data-normalization-and-caching pipeline

A shallow embedding of the pipeline described by the repository's
documentation: the lookup-table builder (`mapping_dict`), the schema
normalizer with per-row coercion failure, the paginated API decoder with
its record limit and cursor-repeat protection, the joiner's regional
grouping check, and the per-key cache layer with explicit refresh.

The repository snapshot contains only documentation (READMEs, changelogs,
notebooks); the Python modules themselves (`common`, `uis`, `api`) are not
present.  Each component below is therefore modelled from the spec, and the
model is checked against the concrete input/output examples that the
notebooks and READMEs record.
-/

namespace UnescoReader

/-! ## Insertion-ordered dictionaries

Python dictionaries are insertion-ordered with last-writer-wins updates.
We model them as association lists in which `dictInsert` overwrites an
existing key in place and otherwise appends at the end. -/

/-- Insert `(k, v)` into an insertion-ordered dictionary: overwrite in place
if `k` is present, else append at the end.  This is the update rule of a
Python `dict`. -/
def dictInsert {α β : Type} [DecidableEq α] : List (α × β) → α → β → List (α × β)
  | [], k, v => [(k, v)]
  | (k', v') :: rest, k, v =>
      if k' = k then (k, v) :: rest else (k', v') :: dictInsert rest k v

/-- Look up a key in an association list, returning the first value bound
to it. -/
def lookupKey {α β : Type} [DecidableEq α] : List (α × β) → α → Option β
  | [], _ => none
  | (k', v) :: rest, k => if k' = k then some v else lookupKey rest k

/-- Remove every binding of a key from an association list. -/
def eraseKey {α β : Type} [DecidableEq α] : List (α × β) → α → List (α × β)
  | [], _ => []
  | (k', v) :: rest, k =>
      if k' = k then eraseKey rest k else (k', v) :: eraseKey rest k

/-- Build a Python-style dict from a row sequence: fold the rows in order,
inserting each `(key, value)` pair with last-writer-wins semantics. -/
def toDict {α β : Type} [DecidableEq α] (rows : List (α × β)) : List (α × β) :=
  rows.foldl (fun d kv => dictInsert d kv.1 kv.2) []

/-- The value bound to `k` by the LAST row of `rows` whose key is `k`. -/
def lookupLast {α β : Type} [DecidableEq α] (rows : List (α × β)) (k : α) : Option β :=
  (rows.reverse.find? (fun p => p.1 = k)).map Prod.snd

/-- The keys of a dictionary, in order. -/
def dictKeys {α β : Type} : List (α × β) → List α
  | [] => []
  | (k, _) :: rest => k :: dictKeys rest

/-! ## The lookup-table builder (`common.mapping_dict`)

Modelled from the spec: the `common` module of the repository is not in the
snapshot; `mapping_dict` is modelled from the spec's Joiner/Enricher section
("converting a two-column raw table into a key→value mapping; keys unique;
collisions resolved by keeping the last occurrence") and from the usage
notebook, which records concrete inputs and outputs. -/

/-- A two-column raw table: an ordered sequence of (left, right) row pairs. -/
structure TwoColTable (α β : Type) where
  rows : List (α × β)

/-- Modelled from the spec: `mapping_dict(df)` with the default (left)
column as keys — a Python dict from left-column entries to right-column
entries, last occurrence winning. -/
def mapping_dict {α β : Type} [DecidableEq α] (df : TwoColTable α β) :
    List (α × β) :=
  toDict df.rows

/-- Modelled from the spec: `mapping_dict(df, 'right')` — the right column
supplies the keys, the left column the values. -/
def mapping_dict_right {α β : Type} [DecidableEq β] (df : TwoColTable α β) :
    List (β × α) :=
  toDict (df.rows.map Prod.swap)

/-- The two-column table used in the usage notebook:
`{'Left column': ['A', 'B', 'C'], 'Right Column': [1, 2, 3]}`. -/
def demoTable : TwoColTable String Int :=
  ⟨[("A", 1), ("B", 2), ("C", 3)]⟩

/-! ## Schema Normalizer

Modelled from the spec: the normalizer module is not in the snapshot.  The
spec: "Coerces `year` to integer and `value` to floating point, failing the
individual row (recording it as a skipped row, not aborting the whole
normalization) when coercion is impossible."  The floating-point coercion
is modelled as an exact integer parse; all claims about it depend only on
whether the coercion succeeds, never on arithmetic of the parsed value. -/

/-- A raw decoded row, every field still a source string. -/
structure RawRecord where
  indicator_id : String
  indicator_name : String
  geo_unit_id : String
  geo_unit_name : String
  year : String
  value : String
deriving DecidableEq, Repr

/-- A normalized row in the canonical schema. -/
structure CanonicalRecord where
  indicator_id : String
  indicator_name : String
  geo_unit_id : String
  geo_unit_name : String
  year : Int
  value : Int
deriving DecidableEq, Repr

/-- Accumulate a decimal digit sequence into a number; `none` on the first
non-digit character. -/
def digitsToNat? : List Char → Nat → Option Nat
  | [], acc => some acc
  | c :: cs, acc =>
      if c.isDigit then digitsToNat? cs (acc * 10 + (c.toNat - 48)) else none

/-- Parse an optional-sign decimal integer; `none` when the string is not
numeric.  This stands in for Python's numeric coercion of the raw fields;
the claims depend only on whether the coercion succeeds. -/
def parseInt? (s : String) : Option Int :=
  match s.data with
  | [] => none
  | '-' :: cs =>
      if cs.isEmpty then none
      else (digitsToNat? cs 0).map (fun n => -(n : Int))
  | cs => (digitsToNat? cs 0).map (fun n => (n : Int))

/-- Modelled from the spec: normalize one raw row, coercing `year` and
`value` to numbers; the row fails (yielding `none`) when either coercion is
impossible. -/
def normalizeRow (r : RawRecord) : Option CanonicalRecord :=
  match parseInt? r.year, parseInt? r.value with
  | some y, some v =>
      some ⟨r.indicator_id, r.indicator_name, r.geo_unit_id, r.geo_unit_name, y, v⟩
  | _, _ => none

/-- Modelled from the spec: normalize a raw record set row by row; a row
whose coercion fails is recorded in the skipped list (second component) and
the remaining rows are still normalized (first component, source order). -/
def normalizeAll : List RawRecord → List CanonicalRecord × List RawRecord
  | [] => ([], [])
  | r :: rs =>
      let rest := normalizeAll rs
      match normalizeRow r with
      | some c => (c :: rest.1, rest.2)
      | none => (rest.1, r :: rest.2)

/-! ## Raw Fetcher and Archive/Page Decoder (API sources)

Modelled from the spec: the fetch/decode modules are not in the snapshot.
The spec: the fetcher fails with a limit-exceeded error when the source
reports more than 100,000 matching records, issuing no further pagination
requests; the decoder "accumulates successive JSON pages into a single
RawRecordSet until a terminal/empty page is observed; detects and fails
fast if a page repeats a prior page's cursor".  The spec's separate
`FetchError`/`DecodeError` taxonomy is merged into one error type whose
constructors keep the distinction; `outOfFuel` is an artifact of bounding
the page loop and is proved unreachable. -/

/-- The service-imposed record cap (README: "there is a 100,000 record
limit for each request"). -/
def RECORD_LIMIT : Nat := 100000

/-- One JSON page: its records and the cursor of the next page, if any. -/
structure Page (ρ : Type) where
  records : List ρ
  next : Option Nat
deriving DecidableEq, Repr

/-- A paginated API source: the total number of matching records it
reports on the initial request, and its pages indexed by cursor.  A cursor
beyond the page list yields the terminal empty page. -/
structure ApiSource (ρ : Type) where
  totalRecords : Nat
  pages : List (Page ρ)
deriving DecidableEq, Repr

/-- The page the source serves at a cursor; past the end of the page list
the source serves the terminal empty page. -/
def getPage {ρ : Type} (s : ApiSource ρ) (c : Nat) : Page ρ :=
  s.pages.getD c ⟨[], none⟩

/-- Errors of the fetch/decode stage.  `limitExceeded` is the
service-imposed limit; `repeatedCursor` is the decoder's pagination-loop
protection; `outOfFuel` bounds the loop and is proved unreachable. -/
inductive FetchError where
  | limitExceeded (total : Nat)
  | repeatedCursor (cursor : Nat)
  | outOfFuel
deriving DecidableEq, Repr

/-- Modelled from the spec: the decoder's page-accumulation loop.  State:
current cursor, cursors already visited, records accumulated so far, the
log of cursors requested so far, and remaining fuel.  The loop fails fast
(before issuing a request) when the cursor repeats a prior page's cursor,
stops at a terminal/empty page, and otherwise follows the next-page
cursor.  Returns the decoded record set (or error) and the request log. -/
def pageLoop {ρ : Type} (s : ApiSource ρ) :
    Nat → List Nat → List ρ → List Nat → Nat →
    Except FetchError (List ρ) × List Nat
  | _, _, _, log, 0 => (.error .outOfFuel, log)
  | c, visited, acc, log, fuel + 1 =>
      if c ∈ visited then (.error (.repeatedCursor c), log)
      else
        let p := getPage s c
        if p.records.isEmpty then (.ok acc, log ++ [c])
        else
          match p.next with
          | none => (.ok (acc ++ p.records), log ++ [c])
          | some c' => pageLoop s c' (c :: visited) (acc ++ p.records) (log ++ [c]) fuel

/-- Modelled from the spec: decode an API source, starting from cursor 0
with fuel one more than the number of pages (shown below to suffice for
every source). -/
def decodeApi {ρ : Type} (s : ApiSource ρ) :
    Except FetchError (List ρ) × List Nat :=
  pageLoop s 0 [] [] [] (s.pages.length + 1)

/-- Modelled from the spec: the fetcher.  The initial request (cursor 0)
reports the total number of matching records; when that exceeds the
service limit the fetcher fails with `limitExceeded` after that single
request, with no pagination; otherwise the page loop runs. -/
def fetchRecords {ρ : Type} (s : ApiSource ρ) :
    Except FetchError (List ρ) × List Nat :=
  if RECORD_LIMIT < s.totalRecords then
    (.error (.limitExceeded s.totalRecords), [0])
  else decodeApi s

/-- The spec's end-to-end decoder scenario: page 1 (cursor 0) holds two
records and points at page 2 (cursor 1), which is empty. -/
def twoPageSource : ApiSource Nat :=
  ⟨4, [⟨[10, 20], some 1⟩, ⟨[], none⟩]⟩

/-- A source whose page 2 points back at page 1's cursor: the pagination
cycle the decoder must detect. -/
def cyclicSource : ApiSource Nat :=
  ⟨4, [⟨[10], some 1⟩, ⟨[20], some 0⟩]⟩

/-! ## Joiner/Enricher: regional grouping

Modelled from the spec: the joiner module is not in the snapshot.  The
spec: "When regional grouping is requested but the dataset has no regional
table, fails with a `NotAvailableError` naming the missing grouping." -/

/-- The requested geographical grouping. -/
inductive Grouping where
  | national
  | regional
deriving DecidableEq, Repr

/-- The error raised when a requested grouping is absent for a dataset;
it carries the name of the missing grouping. -/
inductive NotAvailableError where
  | notAvailable (grouping : String)
deriving DecidableEq, Repr

/-- A loaded dataset: its national-level records and, when the dataset has
a regional table, its regional-level records. -/
structure Dataset where
  nationalData : List CanonicalRecord
  regionalData : Option (List CanonicalRecord)
deriving DecidableEq, Repr

/-- Modelled from the spec: `get_data(grouping)` — national data is always
served; regional data is served when the dataset has a regional table and
otherwise fails with a `NotAvailableError` naming the missing grouping. -/
def get_data (d : Dataset) (grouping : Grouping) :
    Except NotAvailableError (List CanonicalRecord) :=
  match grouping with
  | .national => .ok d.nationalData
  | .regional =>
      match d.regionalData with
      | some t => .ok t
      | none => .error (.notAvailable "REGIONAL")

/-! ## Cache Layer

Modelled from the spec: the cache layer is not in the snapshot.  The spec:
the cache memoizes the pipeline result (success or failure) per request
key, serves every subsequent access for that key from the recorded entry
without re-running the pipeline, and a `refresh` operation force-invalidates
a single key, returning it to absent.  The concurrency aspects (`pending`
state, per-key locks) are outside this sequential embedding; a call is
modelled as an atomic cache transaction. -/

/-- Modelled from the spec: one cache-routed accessor call.  `pipeline` is
the deterministic fetch-decode-normalize-join run for a key; `cache` maps
keys to recorded results.  With `refresh` set the key is invalidated
first.  Returns the result served to the caller, the cache afterwards, and
the number of pipeline runs (underlying fetches) the call performed. -/
def cacheGet {κ α ε : Type} [DecidableEq κ]
    (pipeline : κ → Except ε α) (cache : List (κ × Except ε α)) (k : κ)
    (refresh : Bool) :
    Except ε α × List (κ × Except ε α) × Nat :=
  let cache' := if refresh then eraseKey cache k else cache
  match lookupKey cache' k with
  | some r => (r, cache', 0)
  | none =>
      let r := pipeline k
      (r, dictInsert cache' k r, 1)

/-- Modelled from the spec: force-invalidate a single key, returning it to
the absent state. -/
def refreshKey {κ α ε : Type} [DecidableEq κ]
    (cache : List (κ × Except ε α)) (k : κ) : List (κ × Except ε α) :=
  eraseKey cache k

/-! ## Sample data for concrete scenarios -/

/-- A raw row that normalizes successfully. -/
def goodRow1 : RawRecord :=
  ⟨"CR.1", "Completion rate", "ZWE", "Zimbabwe", "2014", "61"⟩

/-- Another raw row that normalizes successfully. -/
def goodRow2 : RawRecord :=
  ⟨"CR.1", "Completion rate", "ZWE", "Zimbabwe", "2015", "63"⟩

/-- A raw row whose `value` field cannot be coerced to a number. -/
def badRow : RawRecord :=
  ⟨"CR.1", "Completion rate", "ZWE", "Zimbabwe", "2016", "n/a"⟩

/-- A source reporting 100,001 matching records (over the service limit),
with pages behind it that must never be paginated. -/
def overLimitSource : ApiSource Nat :=
  ⟨100001, [⟨[1], some 1⟩, ⟨[2], none⟩]⟩

/-- A dataset with national data but no regional table. -/
def nationalOnlyDataset : Dataset :=
  ⟨[⟨"CR.1", "Completion rate", "ZWE", "Zimbabwe", 2014, 61⟩], none⟩

/-- A sample pipeline for cache scenarios: key 0 succeeds, every other key
fails with a network error. -/
def samplePipeline : Nat → Except String (List Nat) :=
  fun k => if k = 0 then .ok [42] else .error "network failure"

end UnescoReader

namespace UnescoReader

theorem lookupKey_dictInsert {α β : Type} [DecidableEq α]
    (d : List (α × β)) (k k' : α) (v : β) :
    lookupKey (dictInsert d k v) k' = if k' = k then some v else lookupKey d k' := by
  induction d with
  | nil =>
      rcases eq_or_ne k' k with h | h
      · subst h; simp [dictInsert, lookupKey]
      · simp [dictInsert, lookupKey, h, Ne.symm h]
  | cons p rest ih =>
      obtain ⟨k₀, v₀⟩ := p
      rcases eq_or_ne k₀ k with h0 | h0
      · subst h0
        rcases eq_or_ne k' k₀ with h | h
        · subst h; simp [dictInsert, lookupKey]
        · simp [dictInsert, lookupKey, h, Ne.symm h]
      · rcases eq_or_ne k₀ k' with h | h
        · subst h
          simp [dictInsert, lookupKey, h0, Ne.symm h0]
        · simp [dictInsert, lookupKey, h0, h, ih]

theorem dictKeys_dictInsert {α β : Type} [DecidableEq α]
    (d : List (α × β)) (k : α) (v : β) (h : k ∈ dictKeys d) :
    dictKeys (dictInsert d k v) = dictKeys d := by
  induction d with
  | nil => simp [dictKeys] at h
  | cons p rest ih =>
      obtain ⟨k₀, v₀⟩ := p
      rcases eq_or_ne k₀ k with h0 | h0
      · subst h0; simp [dictInsert, dictKeys]
      · have hmem : k ∈ dictKeys rest := by
          rcases List.mem_cons.mp h with h1 | h1
          · exact absurd h1.symm h0
          · exact h1
        simp [dictInsert, h0, dictKeys]
        have := ih hmem
        simpa [dictKeys] using this

theorem dictKeys_dictInsert_not_mem {α β : Type} [DecidableEq α]
    (d : List (α × β)) (k : α) (v : β) (h : k ∉ dictKeys d) :
    dictKeys (dictInsert d k v) = dictKeys d ++ [k] := by
  induction d with
  | nil => simp [dictInsert, dictKeys]
  | cons p rest ih =>
      obtain ⟨k₀, v₀⟩ := p
      have h1 : ¬ k = k₀ := fun hh => h (by simp [dictKeys, hh])
      have h2 : k ∉ dictKeys rest := fun hh => h (by simp [dictKeys, hh])
      have h0 : k₀ ≠ k := Ne.symm h1
      simp [dictInsert, h0, dictKeys]
      have := ih h2
      simpa [dictKeys] using this

theorem nodup_dictKeys_dictInsert {α β : Type} [DecidableEq α]
    (d : List (α × β)) (k : α) (v : β) (h : (dictKeys d).Nodup) :
    (dictKeys (dictInsert d k v)).Nodup := by
  by_cases hmem : k ∈ dictKeys d
  · rw [dictKeys_dictInsert d k v hmem]; exact h
  · rw [dictKeys_dictInsert_not_mem d k v hmem]
    simp [List.nodup_append, h, hmem]

theorem mem_dictKeys_iff_lookup {α β : Type} [DecidableEq α]
    (d : List (α × β)) (k : α) :
    k ∈ dictKeys d ↔ (lookupKey d k).isSome := by
  induction d with
  | nil => simp [dictKeys, lookupKey]
  | cons p rest ih =>
      obtain ⟨k₀, v₀⟩ := p
      rcases eq_or_ne k₀ k with h0 | h0
      · subst h0; simp [dictKeys, lookupKey]
      · simp [dictKeys, lookupKey, h0, Ne.symm h0, ih]

theorem lookupLast_append_single {α β : Type} [DecidableEq α]
    (rows : List (α × β)) (k k' : α) (v : β) :
    lookupLast (rows ++ [(k, v)]) k' =
      if k' = k then some v else lookupLast rows k' := by
  rcases eq_or_ne k' k with h | h
  · subst h
    simp [lookupLast, List.find?]
  · simp [lookupLast, List.find?, h, Ne.symm h]

theorem toDict_append_single {α β : Type} [DecidableEq α]
    (rows : List (α × β)) (k : α) (v : β) :
    toDict (rows ++ [(k, v)]) = dictInsert (toDict rows) k v := by
  simp [toDict, List.foldl_append]

/-- The dictionary built from a row sequence binds each key to the value of
that key's last occurrence. -/
theorem lookup_toDict {α β : Type} [DecidableEq α]
    (rows : List (α × β)) (k : α) :
    lookupKey (toDict rows) k = lookupLast rows k := by
  induction rows using List.reverseRecOn with
  | nil => simp [toDict, lookupKey, lookupLast, List.find?]
  | append_singleton rs p ih =>
      obtain ⟨k₀, v₀⟩ := p
      rw [toDict_append_single, lookupKey_dictInsert, lookupLast_append_single, ih]

/-- The dictionary built from a row sequence has no duplicate keys. -/
theorem nodup_toDict {α β : Type} [DecidableEq α] (rows : List (α × β)) :
    (dictKeys (toDict rows)).Nodup := by
  induction rows using List.reverseRecOn with
  | nil => simp [toDict, dictKeys]
  | append_singleton rs p ih =>
      obtain ⟨k₀, v₀⟩ := p
      rw [toDict_append_single]
      exact nodup_dictKeys_dictInsert _ _ _ ih

theorem dictInsert_not_mem {α β : Type} [DecidableEq α]
    (d : List (α × β)) (k : α) (v : β) (h : k ∉ dictKeys d) :
    dictInsert d k v = d ++ [(k, v)] := by
  induction d with
  | nil => simp [dictInsert]
  | cons p rest ih =>
      obtain ⟨k₀, v₀⟩ := p
      have h1 : k₀ ≠ k := fun hh => h (by simp [dictKeys, hh])
      have h2 : k ∉ dictKeys rest := fun hh => h (by simp [dictKeys, hh])
      simp [dictInsert, h1, ih h2]

theorem dictKeys_eq_map_fst {α β : Type} (d : List (α × β)) :
    dictKeys d = d.map Prod.fst := by
  induction d with
  | nil => simp [dictKeys]
  | cons p rest ih => obtain ⟨k, v⟩ := p; simp [dictKeys, ih]

/-- When the key column has no duplicates, building the dict leaves the row
sequence unchanged. -/
theorem toDict_of_nodup_keys {α β : Type} [DecidableEq α]
    (rows : List (α × β)) (h : (rows.map Prod.fst).Nodup) :
    toDict rows = rows := by
  induction rows using List.reverseRecOn with
  | nil => simp [toDict]
  | append_singleton rs p ih =>
      obtain ⟨k, v⟩ := p
      rw [toDict_append_single]
      have h' : (rs.map Prod.fst).Nodup ∧ k ∉ rs.map Prod.fst := by
        simpa [List.nodup_append] using h
      rw [ih h'.1, dictInsert_not_mem]
      rw [dictKeys_eq_map_fst]
      exact h'.2

theorem lookupKey_eraseKey {α β : Type} [DecidableEq α]
    (d : List (α × β)) (k k' : α) :
    lookupKey (eraseKey d k) k' = if k' = k then none else lookupKey d k' := by
  induction d with
  | nil => simp [eraseKey, lookupKey]
  | cons p rest ih =>
      obtain ⟨k₀, v₀⟩ := p
      rcases eq_or_ne k₀ k with h0 | h0
      · subst h0
        rcases eq_or_ne k' k₀ with h | h
        · subst h; simp [eraseKey, lookupKey, ih]
        · simp [eraseKey, lookupKey, h, Ne.symm h, ih]
      · rcases eq_or_ne k₀ k' with h | h
        · subst h
          simp [eraseKey, lookupKey, h0, Ne.symm h0]
        · simp [eraseKey, lookupKey, h0, h, ih]

theorem normalizeAll_spec (l : List RawRecord) :
    normalizeAll l =
      (l.filterMap normalizeRow, l.filter (fun r => (normalizeRow r).isNone)) := by
  induction l with
  | nil => simp [normalizeAll]
  | cons r rs ih =>
      cases h : normalizeRow r <;>
        simp [normalizeAll, ih, List.filterMap_cons, List.filter_cons, h]

theorem length_filterMap_of_isSome {α β : Type} (f : α → Option β) (l : List α)
    (h : ∀ a ∈ l, (f a).isSome) : (l.filterMap f).length = l.length := by
  induction l with
  | nil => simp
  | cons a l ih =>
      obtain ⟨b, hb⟩ := Option.isSome_iff_exists.mp (h a (by simp))
      simp [List.filterMap_cons, hb, ih (fun x hx => h x (by simp [hx]))]

theorem length_le_of_nodup_lt (l : List Nat) (n : Nat)
    (hnd : l.Nodup) (hlt : ∀ x ∈ l, x < n) : l.length ≤ n := by
  have h1 : l.toFinset ⊆ Finset.range n := by
    intro x hx
    exact Finset.mem_range.mpr (hlt x (List.mem_toFinset.mp hx))
  have h2 := Finset.card_le_card h1
  rwa [Finset.card_range, List.toFinset_card_of_nodup hnd] at h2

/-- The fuel bound of the page loop is never hit: as long as the fuel
covers the pages not yet visited, the loop finishes by itself (every
recursive step visits a fresh in-range cursor, and there are only finitely
many). -/
theorem pageLoop_ne_outOfFuel {ρ : Type} (s : ApiSource ρ) :
    ∀ (fuel c : Nat) (visited : List Nat) (acc : List ρ) (log : List Nat),
      visited.Nodup → (∀ x ∈ visited, x < s.pages.length) →
      s.pages.length + 1 ≤ fuel + visited.length →
      (pageLoop s c visited acc log fuel).1 ≠ .error .outOfFuel := by
  intro fuel
  induction fuel with
  | zero =>
      intro c visited acc log hnd hlt hfuel
      have hlen := length_le_of_nodup_lt visited s.pages.length hnd hlt
      exfalso
      omega
  | succ fuel ih =>
      intro c visited acc log hnd hlt hfuel
      by_cases hmem : c ∈ visited
      · simp [pageLoop, hmem]
      · by_cases hemp : (getPage s c).records.isEmpty
        · simp [pageLoop, hmem, hemp]
        · cases hnext : (getPage s c).next with
          | none => simp [pageLoop, hmem, hemp, hnext]
          | some c' =>
              have hstep :
                  pageLoop s c visited acc log (fuel + 1) =
                    pageLoop s c' (c :: visited) (acc ++ (getPage s c).records)
                      (log ++ [c]) fuel := by
                simp [pageLoop, hmem, hemp, hnext]
              rw [hstep]
              have hc : c < s.pages.length := by
                by_contra hge
                push_neg at hge
                have hdef : getPage s c = ⟨[], none⟩ :=
                  List.getD_eq_default _ _ hge
                rw [hdef] at hemp
                simp at hemp
              refine ih c' (c :: visited) _ _ (List.nodup_cons.mpr ⟨hmem, hnd⟩) ?_ ?_
              · intro x hx
                rcases List.mem_cons.mp hx with h | h
                · subst h; exact hc
                · exact hlt x h
              · simp only [List.length_cons]
                omega

/-! ## Claim theorems -/

/-- C3: building a LookupTable from a two-column raw table yields a
key-to-value mapping in which each key appears once and maps to the value
of its last occurrence in the table's row order; in particular the input
`[("A",1),("A",2)]` yields the mapping `{"A": 2}`. -/
theorem lookup_table_last_occurrence_wins :
    (∀ (rows : List (String × Int)),
        (dictKeys (mapping_dict ⟨rows⟩)).Nodup ∧
        ∀ k, lookupKey (mapping_dict ⟨rows⟩) k = lookupLast rows k) ∧
    mapping_dict ⟨[("A", 1), ("A", 2)]⟩ = [("A", 2)] := by
  refine ⟨fun rows => ⟨nodup_toDict rows, fun k => lookup_toDict rows k⟩, ?_⟩
  decide

/-- C10: on a two-column table whose columns are both duplicate-free, the
right-keyed mapping is exactly the inverse of the default left-keyed one;
on the notebook's table `{'Left column': ['A','B','C'], 'Right Column':
[1,2,3]}` the two dicts are `{'A':1,'B':2,'C':3}` and
`{1:'A',2:'B',3:'C'}`. -/
theorem mapping_dict_right_is_inverse :
    (∀ (rows : List (String × Int)),
        (rows.map Prod.fst).Nodup → (rows.map Prod.snd).Nodup →
        ∀ k v, (k, v) ∈ mapping_dict ⟨rows⟩ ↔ (v, k) ∈ mapping_dict_right ⟨rows⟩) ∧
    mapping_dict demoTable = [("A", 1), ("B", 2), ("C", 3)] ∧
    mapping_dict_right demoTable = [(1, "A"), (2, "B"), (3, "C")] := by
  refine ⟨fun rows h1 h2 k v => ?_, by decide, by decide⟩
  unfold mapping_dict mapping_dict_right
  rw [toDict_of_nodup_keys rows h1, toDict_of_nodup_keys]
  · constructor
    · intro h
      exact List.mem_map.mpr ⟨(k, v), h, rfl⟩
    · intro h
      obtain ⟨p, hm, he⟩ := List.mem_map.mp h
      obtain ⟨a, b⟩ := p
      simp only [Prod.swap_prod_mk, Prod.mk.injEq] at he
      obtain ⟨hb, ha⟩ := he
      subst hb; subst ha
      exact hm
  · simpa [List.map_map, Function.comp_def] using h2

/-- Witness for C10: the notebook's table, key `"A"`, value `1`. -/
theorem mapping_dict_right_is_inverse_witness :
    ("A", (1 : Int)) ∈ mapping_dict demoTable ↔
      ((1 : Int), "A") ∈ mapping_dict_right demoTable :=
  mapping_dict_right_is_inverse.1 demoTable.rows (by decide) (by decide) "A" 1

/-- C4: normalizing a raw record set that contains one row whose `value`
cannot be coerced yields exactly the canonical sequence of the set without
that row, records precisely that row as skipped, and keeps every other row
(no other row is dropped: the canonical sequence has one record per
remaining row). -/
theorem normalizer_skips_only_bad_row
    (pre post : List RawRecord) (bad : RawRecord)
    (hpre : ∀ r ∈ pre, (normalizeRow r).isSome)
    (hpost : ∀ r ∈ post, (normalizeRow r).isSome)
    (hbad : parseInt? bad.value = none) :
    (normalizeAll (pre ++ bad :: post)).1 = (normalizeAll (pre ++ post)).1 ∧
    (normalizeAll (pre ++ bad :: post)).2 = [bad] ∧
    (normalizeAll (pre ++ post)).1.length = pre.length + post.length := by
  have hbadrow : normalizeRow bad = none := by
    cases h : parseInt? bad.year <;> simp [normalizeRow, h, hbad]
  have hgoodfilter : ∀ (l : List RawRecord), (∀ r ∈ l, (normalizeRow r).isSome) →
      l.filter (fun r => (normalizeRow r).isNone) = [] := by
    intro l hl
    refine List.filter_eq_nil_iff.mpr fun r hr => ?_
    have := hl r hr
    cases h : normalizeRow r with
    | none => rw [h] at this; simp at this
    | some c => simp [h]
  refine ⟨?_, ?_, ?_⟩
  · rw [normalizeAll_spec, normalizeAll_spec]
    simp [List.filterMap_append, List.filterMap_cons, hbadrow]
  · rw [normalizeAll_spec]
    simp [List.filter_append, List.filter_cons, hbadrow,
      hgoodfilter pre hpre, hgoodfilter post hpost]
  · rw [normalizeAll_spec]
    have hall : ∀ r ∈ pre ++ post, (normalizeRow r).isSome := by
      intro r hr
      rcases List.mem_append.mp hr with h | h
      · exact hpre r h
      · exact hpost r h
    have hlen := length_filterMap_of_isSome normalizeRow (pre ++ post) hall
    rw [List.length_append] at hlen
    exact hlen

/-- Witness for C4: a three-row set whose middle row has value `"n/a"`. -/
theorem normalizer_skips_only_bad_row_witness :
    (normalizeAll ([goodRow1] ++ badRow :: [goodRow2])).1
        = (normalizeAll ([goodRow1] ++ [goodRow2])).1 ∧
    (normalizeAll ([goodRow1] ++ badRow :: [goodRow2])).2 = [badRow] ∧
    (normalizeAll ([goodRow1] ++ [goodRow2])).1.length
        = [goodRow1].length + [goodRow2].length :=
  normalizer_skips_only_bad_row [goodRow1] [goodRow2] badRow
    (by decide) (by decide) (by decide)

/-- C2: a request whose source reports more than 100,000 matching records
fails with the limit-exceeded FetchError (which distinguishes the
service-imposed limit and carries the reported total), and the request log
holds only the initial request — no pagination request is issued after the
limit is detected. -/
theorem fetch_limit_exceeded {ρ : Type} (s : ApiSource ρ)
    (h : 100000 < s.totalRecords) :
    (fetchRecords s).1 = .error (.limitExceeded s.totalRecords) ∧
    (fetchRecords s).2 = [0] := by
  constructor <;> simp [fetchRecords, RECORD_LIMIT, h]

/-- Witness for C2: a source reporting 100,001 records whose pages, if
paginated, would issue further requests. -/
theorem fetch_limit_exceeded_witness :
    (fetchRecords overLimitSource).1 = .error (.limitExceeded overLimitSource.totalRecords) ∧
    (fetchRecords overLimitSource).2 = [0] :=
  fetch_limit_exceeded overLimitSource (by decide)

/-- C5: the decoder's page-accumulation loop terminates for every paginated
source (its fuel bound is never the reason it stops); on the spec's
2-page source (page 1 holds 2 records, page 2 is empty) it yields exactly
those 2 records having requested only cursors 0 and 1, nothing past the
empty page; and on a source whose second page repeats the first page's
cursor it fails fast with `repeatedCursor` after the two requests instead
of looping forever. -/
theorem decoder_page_loop_terminates :
    (∀ (ρ : Type) (s : ApiSource ρ), (decodeApi s).1 ≠ .error .outOfFuel) ∧
    decodeApi twoPageSource = (.ok [10, 20], [0, 1]) ∧
    decodeApi cyclicSource = (.error (.repeatedCursor 0), [0, 1]) := by
  refine ⟨fun ρ s => ?_, rfl, rfl⟩
  exact pageLoop_ne_outOfFuel s (s.pages.length + 1) 0 [] [] []
    (by simp) (by simp) (by simp)

/-- C8: requesting regional grouping on a dataset that has no regional
table fails with a `NotAvailableError` naming the missing grouping, and
never returns an ok result (in particular neither an empty nor a
national-level record set). -/
theorem regional_grouping_not_available (d : Dataset)
    (h : d.regionalData = none) :
    get_data d .regional = .error (.notAvailable "REGIONAL") ∧
    ∀ t, get_data d .regional ≠ .ok t := by
  refine ⟨by simp [get_data, h], fun t => by simp [get_data, h]⟩

/-- Witness for C8: a dataset holding national data but no regional
table. -/
theorem regional_grouping_not_available_witness :
    get_data nationalOnlyDataset .regional = .error (.notAvailable "REGIONAL") ∧
    ∀ t, get_data nationalOnlyDataset .regional ≠ .ok t :=
  regional_grouping_not_available nationalOnlyDataset rfl

/-- C1: with a key not yet cached, two successive accessor calls with
identical parameters and refresh unset return identical (bit-identical)
results, and exactly one underlying pipeline fetch is performed across the
two calls — the second call performs zero fetches because it is served
from the cache. -/
theorem cache_idempotent_single_fetch {κ α ε : Type} [DecidableEq κ]
    (pipeline : κ → Except ε α) (cache : List (κ × Except ε α)) (k : κ)
    (h : lookupKey cache k = none) :
    (cacheGet pipeline cache k false).1
        = (cacheGet pipeline (cacheGet pipeline cache k false).2.1 k false).1 ∧
    (cacheGet pipeline cache k false).2.2
        + (cacheGet pipeline (cacheGet pipeline cache k false).2.1 k false).2.2 = 1 ∧
    (cacheGet pipeline (cacheGet pipeline cache k false).2.1 k false).2.2 = 0 := by
  refine ⟨?_, ?_, ?_⟩ <;> simp [cacheGet, h, lookupKey_dictInsert]

/-- Witness for C1: key 0 on the empty cache with the sample pipeline. -/
theorem cache_idempotent_single_fetch_witness :
    (cacheGet samplePipeline [] 0 false).1
        = (cacheGet samplePipeline (cacheGet samplePipeline [] 0 false).2.1 0 false).1 ∧
    (cacheGet samplePipeline [] 0 false).2.2
        + (cacheGet samplePipeline (cacheGet samplePipeline [] 0 false).2.1 0 false).2.2 = 1 ∧
    (cacheGet samplePipeline (cacheGet samplePipeline [] 0 false).2.1 0 false).2.2 = 0 :=
  cache_idempotent_single_fetch samplePipeline [] 0 rfl

/-- C6: when the pipeline run for a key fails, the failure is recorded in
the cache; every subsequent access to that key surfaces the same error,
performs no new fetch, and leaves the cache unchanged (so the property
persists across reads); an explicit refresh returns the key to absent. -/
theorem cache_failed_error_sticky {κ α ε : Type} [DecidableEq κ]
    (pipeline : κ → Except ε α) (cache : List (κ × Except ε α)) (k : κ) (e : ε) :
    (pipeline k = .error e → lookupKey cache k = none →
        (cacheGet pipeline cache k false).1 = .error e ∧
        lookupKey (cacheGet pipeline cache k false).2.1 k = some (.error e)) ∧
    (lookupKey cache k = some (.error e) →
        cacheGet pipeline cache k false = (.error e, cache, 0)) ∧
    lookupKey (refreshKey cache k) k = none := by
  refine ⟨fun hp hc => ?_, fun hc => ?_, ?_⟩
  · constructor <;> simp [cacheGet, hc, hp, lookupKey_dictInsert]
  · simp [cacheGet, hc]
  · simp [refreshKey, lookupKey_eraseKey]

/-- Witness for C6: key 1 (whose pipeline run fails with a network error),
first on the empty cache, then on the cache holding the recorded
failure. -/
theorem cache_failed_error_sticky_witness :
    (cacheGet samplePipeline [] 1 false).1 = .error "network failure" ∧
    lookupKey (cacheGet samplePipeline [] 1 false).2.1 1
        = some (.error "network failure") ∧
    cacheGet samplePipeline [(1, .error "network failure")] 1 false
        = (.error "network failure", [(1, .error "network failure")], 0) ∧
    lookupKey (refreshKey
        [((1 : Nat), (Except.error "network failure" : Except String (List Nat)))] 1) 1
        = none :=
  ⟨((cache_failed_error_sticky samplePipeline [] 1 "network failure").1 rfl rfl).1,
   ((cache_failed_error_sticky samplePipeline [] 1 "network failure").1 rfl rfl).2,
   (cache_failed_error_sticky samplePipeline
      [(1, .error "network failure")] 1 "network failure").2.1 rfl,
   (cache_failed_error_sticky samplePipeline
      [(1, .error "network failure")] 1 "network failure").2.2⟩

/-- C7: cache operations for one key never touch another key's entry: an
accessor call for key `k` (with or without refresh) leaves the entry of
every other key unchanged, and refreshing `k` returns exactly `k` to the
absent state while leaving every other entry unchanged. -/
theorem cache_key_isolation {κ α ε : Type} [DecidableEq κ]
    (pipeline : κ → Except ε α) (cache : List (κ × Except ε α)) (k k' : κ)
    (rf : Bool) (hne : k' ≠ k) :
    lookupKey (cacheGet pipeline cache k rf).2.1 k' = lookupKey cache k' ∧
    lookupKey (refreshKey cache k) k' = lookupKey cache k' ∧
    lookupKey (refreshKey cache k) k = none := by
  refine ⟨?_, ?_, ?_⟩
  · cases rf with
    | false =>
        rcases hc : lookupKey cache k with _ | r <;>
          simp [cacheGet, hc, lookupKey_dictInsert, hne]
    | true =>
        have hkey : lookupKey (eraseKey cache k) k = none := by
          simp [lookupKey_eraseKey]
        simp [cacheGet, hkey, lookupKey_dictInsert, lookupKey_eraseKey, hne]
  · simp [refreshKey, lookupKey_eraseKey, hne]
  · simp [refreshKey, lookupKey_eraseKey]

/-- Witness for C7: keys 0 and 1 on a one-entry cache, with refresh set. -/
theorem cache_key_isolation_witness :
    lookupKey (cacheGet samplePipeline [(1, .ok [7])] 0 true).2.1 1
        = lookupKey [(1, .ok [7])] 1 ∧
    lookupKey (refreshKey [((1 : Nat), (Except.ok [7] : Except String (List Nat)))] 0) 1
        = lookupKey [(1, .ok [7])] 1 ∧
    lookupKey (refreshKey [((1 : Nat), (Except.ok [7] : Except String (List Nat)))] 0) 0 = none :=
  cache_key_isolation samplePipeline [(1, .ok [7])] 0 1 true (by decide)

end UnescoReader
